import Mathlib

/-!
Shallow embedding of the core of the `dynamic-agents` repository
(`src/dynamic_agents`): output normalization and the execution engine
(`core/execution.py`), event routing (`core/events.py`), the stream worker's
failure handling (`worker.py`), and the LiteLLM router manager
(`router/manager.py`).  Python runtime values are embedded as the inductive
type `PyVal`; machine-level concerns (asyncio scheduling, SQLAlchemy sessions,
Redis I/O) are modelled as explicit state passing and effect records.
-/

namespace DynamicAgents

/-- Embedding of the Python runtime values that flow through the core code:
`None`, booleans, integers, strings, `uuid.UUID` instances (identified by a
natural number), lists, string-keyed dicts (association lists in insertion
order), and `AgentRunOutput` dataclass instances (four fields, in declaration
order: content, structured_data, metadata, tokens). -/
inductive PyVal where
  | none : PyVal
  | bool : Bool → PyVal
  | int : Int → PyVal
  | str : String → PyVal
  | uuid : Nat → PyVal
  | list : List PyVal → PyVal
  | dict : List (String × PyVal) → PyVal
  | output : PyVal → PyVal → PyVal → PyVal → PyVal

/-- Python truthiness (`bool(v)`): `None`/`False`/`0`/`""` and empty
containers are falsy; UUID instances and dataclass instances are truthy. -/
def PyVal.truthy : PyVal → Bool
  | .none => false
  | .bool b => b
  | .int n => n != 0
  | .str s => !s.isEmpty
  | .uuid _ => true
  | .list xs => !xs.isEmpty
  | .dict xs => !xs.isEmpty
  | .output _ _ _ _ => true

/-- Python `a or b`: returns `a` when `a` is truthy, else `b` verbatim
(whether or not `b` is truthy). -/
def pyOr (a b : PyVal) : PyVal := if a.truthy then a else b

/-- Python `d.get(k)` on a string-keyed dict: the stored value, or `None`
when the key is absent. -/
def PyVal.get : PyVal → String → PyVal
  | .dict xs, k =>
    match xs.lookup k with
    | some v => v
    | Option.none => .none
  | _, _ => .none

/-- Python `str(v)` for the values that can reach a stringification site in
the embedded code.  A UUID instance renders through its numeric identity
(the exact canonical rendering is irrelevant to the embedded properties). -/
def PyVal.pyStr : PyVal → String
  | .none => "None"
  | .bool true => "True"
  | .bool false => "False"
  | .int n => toString n
  | .str s => s
  | .uuid u => toString u
  | .list _ => "<list>"
  | .dict _ => "<dict>"
  | .output _ _ _ _ => "<AgentRunOutput>"

/-- `AgentRunOutput` dataclass from `core/execution.py`.  The Python class
annotates its fields (`content: str | None`, dict fields), but at runtime any
value can be stored in them, so the embedding keeps them as `PyVal`. -/
structure AgentRunOutput where
  content : PyVal := .none
  structured_data : PyVal := .none
  metadata : PyVal := .none
  tokens : PyVal := .none

/-- The `AgentRunOutput` dataclass instance seen as a Python value. -/
def AgentRunOutput.toVal (o : AgentRunOutput) : PyVal :=
  .output o.content o.structured_data o.metadata o.tokens

/-- `AgentRunOutput.from_value` from `core/execution.py`:
an `AgentRunOutput` instance is returned as-is; a string becomes the content
with empty metadata; a dict yields `metadata = value.get("metadata") or {}`,
`tokens = value.get("tokens")`, `structured = value.get("structured_data")`,
`content = value.get("content") or value.get("text")`; `None` yields empty
metadata; anything else is stringified into the content. -/
def AgentRunOutput.from_value : PyVal → AgentRunOutput
  | .output c s m t => ⟨c, s, m, t⟩
  | .str s => ⟨.str s, .none, .dict [], .none⟩
  | .dict xs =>
    let v : PyVal := .dict xs
    ⟨pyOr (v.get "content") (v.get "text"),
     v.get "structured_data",
     pyOr (v.get "metadata") (.dict []),
     v.get "tokens"⟩
  | .none => ⟨.none, .none, .dict [], .none⟩
  | v => ⟨.str v.pyStr, .none, .dict [], .none⟩

/-! ## Execution engine (`core/execution.py`) -/

/-- `ExecutionTargetType` from `models/executions.py`. -/
inductive TargetType where
  | agent : TargetType
  | team : TargetType
  | workflow : TargetType
deriving DecidableEq, Repr

/-- `ExecutionStatus` from `models/executions.py`. -/
inductive ExecStatus where
  | pending : ExecStatus
  | running : ExecStatus
  | completed : ExecStatus
  | failed : ExecStatus
  | cancelled : ExecStatus
deriving DecidableEq, Repr

/-- The persisted `ExecutionRecord` row (`models/executions.py`), restricted
to the columns the engine reads or writes.  Timestamps are clock ticks of the
engine store; token columns hold whatever Python value the runnable returned
under the token keys. -/
structure ExecRecord where
  id : Nat
  target_type : TargetType
  status : ExecStatus
  agent_id : Option Nat := Option.none
  team_id : Option Nat := Option.none
  workflow_id : Option Nat := Option.none
  session_id : Option String := Option.none
  user_id : Option Nat := Option.none
  input_payload : PyVal := .none
  run_metadata : PyVal := .none
  output_payload : Option PyVal := Option.none
  error_message : Option String := Option.none
  duration_ms : Option Nat := Option.none
  started_at : Option Nat := Option.none
  finished_at : Option Nat := Option.none
  prompt_tokens : PyVal := .none
  completion_tokens : PyVal := .none
  total_tokens : PyVal := .none

/-- The database visible to the engine: rows keyed by primary key, a
primary-key generator, and a monotone clock supplying `datetime.now()` /
`loop.time()` readings. -/
structure EngineStore where
  records : List (Nat × ExecRecord)
  nextId : Nat
  clock : Nat

/-- Replace the first row with the given primary key (the database updates a
row by unique primary key); a missing key leaves the store unchanged. -/
def setRecord : List (Nat × ExecRecord) → Nat → ExecRecord → List (Nat × ExecRecord)
  | [], _, _ => []
  | (j, old) :: rest, i, r =>
    if j = i then (i, r) :: rest else (j, old) :: setRecord rest i r

/-- `ExecutionEngine._create_execution_record`: insert a PENDING row with the
target foreign key chosen by target type, input payload, and run metadata
copied from the payload's metadata. -/
def createExecutionRecord (st : EngineStore) (tt : TargetType) (tid : Nat)
    (inputPayload : PyVal) (userId : Option Nat) (sessionId : Option String) :
    EngineStore × Nat :=
  let rec0 : ExecRecord :=
    { id := st.nextId
      target_type := tt
      status := .pending
      agent_id := if tt = .agent then some tid else Option.none
      team_id := if tt = .team then some tid else Option.none
      workflow_id := if tt = .workflow then some tid else Option.none
      session_id := sessionId
      user_id := userId
      input_payload := inputPayload
      run_metadata := inputPayload.get "metadata" }
  ({ st with records := (st.nextId, rec0) :: st.records, nextId := st.nextId + 1 },
   st.nextId)

/-- `ExecutionEngine._mark_execution_running`: best-effort transition to
RUNNING stamping `started_at`; a missing row is a no-op. -/
def markExecutionRunning (st : EngineStore) (i : Nat) (startedAt : Nat) : EngineStore :=
  match st.records.lookup i with
  | Option.none => st
  | some rec0 =>
    { st with records :=
        (setRecord st.records i
          { rec0 with status := .running, started_at := some startedAt }) }

/-- The Python type name of a value, as it appears in an `AttributeError`
message. -/
def PyVal.typeName : PyVal → String
  | .none => "NoneType"
  | .bool _ => "bool"
  | .int _ => "int"
  | .str _ => "str"
  | .uuid _ => "UUID"
  | .list _ => "list"
  | .dict _ => "dict"
  | .output _ _ _ _ => "AgentRunOutput"

/-- Python `v.get(k)` as a method call: only dicts carry a `get` attribute;
on any other value the attribute access raises `AttributeError`. -/
def pyCallGet (v : PyVal) (k : String) : Except String PyVal :=
  match v with
  | .dict xs => .ok ((PyVal.dict xs).get k)
  | other =>
    .error ("AttributeError: '" ++ other.typeName ++ "' object has no attribute 'get'")

/-- `ExecutionEngine._update_execution_success`: transition to COMPLETED,
storing the output payload, duration, finish stamp, clearing the error, and
— when the unvalidated token value is truthy — reading the token fields off
it with `.get`.  A truthy value without a `get` attribute (anything but a
dict here) raises `AttributeError` at `tokens.get("prompt_tokens")` before
the commit: the store is left untouched and the exception propagates
(second component).  A missing row is a no-op. -/
def updateExecutionSuccess (st : EngineStore) (i : Nat) (output : PyVal)
    (durationMs : Nat) (tokens : PyVal) (finishedAt : Nat) :
    EngineStore × Option String :=
  match st.records.lookup i with
  | Option.none => (st, Option.none)
  | some rec0 =>
    let rec1 : ExecRecord :=
      { rec0 with
          status := .completed
          output_payload := some output
          duration_ms := some durationMs
          finished_at := some finishedAt
          error_message := Option.none }
    if tokens.truthy then
      match pyCallGet tokens "prompt_tokens" with
      | .error e => (st, some e)
      | .ok pt =>
        match pyCallGet tokens "completion_tokens" with
        | .error e => (st, some e)
        | .ok ct =>
          match pyCallGet tokens "total_tokens" with
          | .error e => (st, some e)
          | .ok tt =>
            ({ st with records :=
                (setRecord st.records i
                  { rec1 with
                      prompt_tokens := pt
                      completion_tokens := ct
                      total_tokens := tt }) },
             Option.none)
    else ({ st with records := setRecord st.records i rec1 }, Option.none)

/-- `ExecutionEngine._update_execution_failure`: best-effort transition to
FAILED, storing the stringified error, duration, and finish stamp. -/
def updateExecutionFailure (st : EngineStore) (i : Nat) (error : String)
    (durationMs : Nat) (finishedAt : Nat) : EngineStore :=
  match st.records.lookup i with
  | Option.none => st
  | some rec0 =>
    { st with records :=
        (setRecord st.records i
          { rec0 with
              status := .failed
              error_message := some error
              duration_ms := some durationMs
              finished_at := some finishedAt }) }

/-- Python `dict(v)` for the mapping values reaching the normalizer's
`dict(normalized.metadata or {})` call; a non-mapping raises `TypeError`. -/
def pyDict : PyVal → Except String PyVal
  | .dict xs => .ok (.dict xs)
  | _ => .error "TypeError: value is not a mapping"

/-- `ExecutionEngine._normalize_output`: normalize the raw runnable response
through `AgentRunOutput.from_value` into the stored output payload and the
token map.  The `dict(...)` copy of a non-mapping metadata value raises,
which the engine's surrounding `try` turns into a failure. -/
def normalizeOutput (raw : PyVal) : Except String (PyVal × PyVal) := do
  let normalized := AgentRunOutput.from_value raw
  let metadata ← pyDict (pyOr normalized.metadata (.dict []))
  .ok (.dict [("content", normalized.content),
              ("structured_data", normalized.structured_data),
              ("metadata", metadata)],
       normalized.tokens)

/-- `ExecutionEngine._run_target`.  The resolution of the runnable and its
(one-shot or streamed-to-final-chunk) invocation are modelled by the `invoke`
argument: `.ok raw` is the raw response value, `.error e` is the stringified
exception (`str(exc)`) raised during resolution or invocation and caught by
the surrounding `try`.  The success update sits outside that `try`: when it
raises (truthy non-dict token value), the exception propagates to the caller
(second component `.error`) and the final re-fetch never runs.  The first
component is the database state, which persists across the raise.  Every
`datetime.now()` / `loop.time()` reading ticks the store clock. -/
def runTarget (st : EngineStore) (tt : TargetType) (tid : Nat)
    (inputText : String) (sessionId : Option String) (userId : Option Nat)
    (metadata : List (String × PyVal)) (invoke : Except String PyVal) :
    EngineStore × Except String ExecRecord :=
  let inputPayload : PyVal :=
    .dict [("content", .str inputText), ("metadata", .dict metadata)]
  let (st1, execId) := createExecutionRecord st tt tid inputPayload userId sessionId
  let startedAt := st1.clock
  let st2 := markExecutionRunning { st1 with clock := st1.clock + 1 } execId startedAt
  let startTime := st2.clock
  let st3 := { st2 with clock := st2.clock + 1 }
  let attempt : Except String (PyVal × PyVal) := do
    let raw ← invoke
    normalizeOutput raw
  let endTime := st3.clock
  let st4 := { st3 with clock := st3.clock + 1 }
  let durationMs := endTime - startTime
  let finishedAt := st4.clock
  let st5 := { st4 with clock := st4.clock + 1 }
  match attempt with
  | .ok (output, tokens) =>
    match updateExecutionSuccess st5 execId output durationMs tokens finishedAt with
    | (st6, some e) => (st6, .error e)
    | (st6, Option.none) =>
      match st6.records.lookup execId with
      | some rec0 => (st6, .ok rec0)
      | Option.none => (st6, .error ("Execution " ++ toString execId ++ " not found"))
  | .error e =>
    let st6 := updateExecutionFailure st5 execId e durationMs finishedAt
    match st6.records.lookup execId with
    | some rec0 => (st6, .ok rec0)
    | Option.none => (st6, .error ("Execution " ++ toString execId ++ " not found"))

/-! ## Event routing (`core/events.py` and
`ExecutionEngine._resolve_event_target` in `core/execution.py`) -/

/-- `AgentRequestEvent` as seen by the routing code, which reads `agent_id`
defensively (`getattr(event, "agent_id", None)` / truthiness) and so treats
it as optional.  Metadata and payload are the event's free-form dicts. -/
structure Event where
  agent_id : Option Nat := Option.none
  session_id : Option String := Option.none
  user_id : Option Nat := Option.none
  payload : List (String × PyVal) := []
  metadata : List (String × PyVal) := []

/-- Hexadecimal digit value, as accepted by `uuid.UUID`. -/
def hexDigit (c : Char) : Option Nat :=
  if '0' ≤ c ∧ c ≤ '9' then some (c.toNat - '0'.toNat)
  else if 'a' ≤ c ∧ c ≤ 'f' then some (c.toNat - 'a'.toNat + 10)
  else if 'A' ≤ c ∧ c ≤ 'F' then some (c.toNat - 'A'.toNat + 10)
  else Option.none

/-- Accumulate a hex string into a natural number; any non-hex character
makes the parse fail. -/
def parseHexAux : List Char → Nat → Option Nat
  | [], acc => some acc
  | c :: rest, acc =>
    match hexDigit c with
    | some d => parseHexAux rest (acc * 16 + d)
    | Option.none => Option.none

/-- Split a character list on `-` (the group decomposition performed by
`uuid.UUID` on the hyphenated representation). -/
def splitDashes : List Char → List (List Char)
  | [] => [[]]
  | c :: rest =>
    match splitDashes rest with
    | g :: gs => if c = '-' then [] :: g :: gs else (c :: g) :: gs
    | [] => if c = '-' then [[], []] else [[c]]

/-- `uuid.UUID(s)` on the canonical hyphenated 8-4-4-4-12 representation
(the Python constructor also accepts some alternative spellings; the claims
only need canonical strings to parse). -/
def uuidFromString (s : String) : Option Nat :=
  match splitDashes s.toList with
  | [a, b, c, d, e] =>
    if a.length = 8 ∧ b.length = 4 ∧ c.length = 4 ∧ d.length = 4 ∧ e.length = 12
    then parseHexAux (a ++ b ++ c ++ d ++ e) 0
    else Option.none
  | _ => Option.none

/-- An ASCII whitespace character, as removed by `str.strip()`. -/
def isStripChar (c : Char) : Bool :=
  c = ' ' || c = '\t' || c = '\n' || c = '\r'

/-- `value.strip()` on the character list of a string. -/
def stripChars (cs : List Char) : List Char :=
  ((cs.dropWhile isStripChar).reverse.dropWhile isStripChar).reverse

/-- `ExecutionEngine._maybe_uuid`: a UUID instance passes through; a string
is stripped and parsed as a UUID (empty or unparseable strings yield `None`);
every other value yields `None`. -/
def maybeUuid : PyVal → Option Nat
  | .uuid u => some u
  | .str s =>
    let stripped := stripChars s.toList
    if stripped.isEmpty then Option.none
    else uuidFromString (String.mk stripped)
  | _ => Option.none

/-- Lookup of an identifier key through `metadata.get(key) or
payload.get(key)` as both extractors do it. -/
def eventKeyValue (e : Event) (key : String) : PyVal :=
  pyOr ((PyVal.dict e.metadata).get key) ((PyVal.dict e.payload).get key)

/-- `ExecutionEngine._resolve_event_target`: a direct `agent_id` UUID wins;
otherwise the keys `team_id`, `workflow_id`, `agent_id` are checked in that
order through `_maybe_uuid`; if none parses the engine raises `ValueError`. -/
def resolveEventTarget (e : Event) : Except String (TargetType × Nat) :=
  match e.agent_id with
  | some a => .ok (.agent, a)
  | Option.none =>
    match maybeUuid (eventKeyValue e "team_id") with
    | some u => .ok (.team, u)
    | Option.none =>
      match maybeUuid (eventKeyValue e "workflow_id") with
      | some u => .ok (.workflow, u)
      | Option.none =>
        match maybeUuid (eventKeyValue e "agent_id") with
        | some u => .ok (.agent, u)
        | Option.none =>
          .error "AgentRequestEvent must define agent_id, team_id, or workflow_id for execution"

/-- Whether a Python value is an actual `uuid.UUID` instance (the
`isinstance(x, UUID)` checks in `EventRouter._extract_explicit_target`). -/
def isUuidInstance : PyVal → Bool
  | .uuid _ => true
  | _ => false

/-- `EventRouter._extract_explicit_target`: a truthy direct `agent_id` wins;
otherwise `team_id`, `workflow_id`, `agent_id` are checked in that order in
metadata-then-payload, accepting only values that are `UUID` instances
(strings are not parsed here). -/
def extractExplicitTarget (e : Event) : Option (TargetType × Nat) :=
  match e.agent_id with
  | some a => some (.agent, a)
  | Option.none =>
    match eventKeyValue e "team_id" with
    | .uuid u => some (.team, u)
    | _ =>
      match eventKeyValue e "workflow_id" with
      | .uuid u => some (.workflow, u)
      | _ =>
        match eventKeyValue e "agent_id" with
        | .uuid u => some (.agent, u)
        | _ => Option.none

/-- `RoutingRule` from `core/events.py`. -/
structure RoutingRule where
  name : String
  priority : Int := 0
  source_pattern : Option String := Option.none
  content_pattern : Option String := Option.none
  user_pattern : Option String := Option.none
  target_type : TargetType
  target_id : Nat

/-- Python truthiness of an optional string field (`if self.source_pattern:`):
`None` and the empty string are falsy. -/
def optStrTruthy : Option String → Bool
  | Option.none => false
  | some s => !s.isEmpty

/-- `RoutingRule._match_pattern`: only strings are matched; `rm` stands for
`re.search` returning whether the pattern matches the value. -/
def matchPattern (rm : String → String → Bool) (pat : String) : PyVal → Bool
  | .str s => rm pat s
  | _ => false

/-- `RoutingRule.matches`: every truthy declared pattern must match the
corresponding extracted value (source from metadata-then-payload, content
from payload `content`/`input_text`, user from `str(event.user_id or
metadata.get("user_id") or "")`). -/
def RoutingRule.matches (r : RoutingRule) (rm : String → String → Bool) (e : Event) : Bool :=
  let md : PyVal := .dict e.metadata
  let pl : PyVal := .dict e.payload
  let sourceOk :=
    match r.source_pattern with
    | some sp =>
      if sp.isEmpty then true
      else matchPattern rm sp (pyOr (md.get "source") (pyOr (pl.get "source") (.str "")))
    | Option.none => true
  let contentOk :=
    match r.content_pattern with
    | some cp =>
      if cp.isEmpty then true
      else matchPattern rm cp (pyOr (pl.get "content") (pyOr (pl.get "input_text") (.str "")))
    | Option.none => true
  let userOk :=
    match r.user_pattern with
    | some up =>
      if up.isEmpty then true
      else
        let userVal :=
          match e.user_id with
          | some u => PyVal.uuid u
          | Option.none => pyOr (md.get "user_id") (.str "")
        rm up userVal.pyStr
    | Option.none => true
  sourceOk && contentOk && userOk

/-- Stable insertion into a descending-priority list: the new element goes
before the first element of priority less than or equal to its own, so among
equal priorities the element inserted later (i.e. appearing earlier in the
original list under `sortRulesDesc`) comes first. -/
def insertRuleDesc (r : RoutingRule) : List RoutingRule → List RoutingRule
  | [] => [r]
  | x :: xs =>
    if x.priority ≤ r.priority then r :: x :: xs else x :: insertRuleDesc r xs

/-- `sorted(rules, key=lambda rule: rule.priority, reverse=True)`: Python's
stable sort in descending priority order, realised as a stable insertion
sort (any stable sort computes the same list). -/
def sortRulesDesc : List RoutingRule → List RoutingRule
  | [] => []
  | r :: rs => insertRuleDesc r (sortRulesDesc rs)

/-- The rule-scan step of `EventRouter.route`: first matching rule of the
priority-sorted list. -/
def ruleSelect (rm : String → String → Bool) (e : Event)
    (rules : List RoutingRule) : Option RoutingRule :=
  (sortRulesDesc rules).find? (fun r => r.matches rm e)

/-- `EventRouter._extract_source`: the `source` string from metadata or
payload, required to be a non-empty string. -/
def extractSource (e : Event) : Option String :=
  match pyOr ((PyVal.dict e.metadata).get "source") ((PyVal.dict e.payload).get "source") with
  | .str s => if s.isEmpty then Option.none else some s
  | _ => Option.none

/-- `EventRouter.route`: explicit target, else highest-priority matching
rule, else the repository's default route for the extracted source, else
`ValueError("No routing target available for event")`.  `rm` models
`re.search`, `defaultRoute` models `AgentRepository.get_default_route`. -/
def route (rm : String → String → Bool)
    (defaultRoute : String → Option (TargetType × Nat))
    (rules : List RoutingRule) (e : Event) : Except String (TargetType × Nat) :=
  match extractExplicitTarget e with
  | some t => .ok t
  | Option.none =>
    match ruleSelect rm e rules with
    | some r => .ok (r.target_type, r.target_id)
    | Option.none =>
      match extractSource e with
      | some s =>
        match defaultRoute s with
        | some t => .ok t
        | Option.none => .error "No routing target available for event"
      | Option.none => .error "No routing target available for event"

/-- Reference characterisation of the rule scan, written from the spec's
words: the selected rule is the matching rule of highest priority, ties
broken in favour of the earlier-inserted rule. -/
def bestRule (rm : String → String → Bool) (e : Event) :
    List RoutingRule → Option RoutingRule
  | [] => Option.none
  | r :: rs =>
    match bestRule rm e rs with
    | Option.none => if r.matches rm e then some r else Option.none
    | some b =>
      if r.matches rm e && b.priority ≤ r.priority then some r else some b

/-- `{r with priority := p}`: the only field update the priority-invariance
part of the rule-scan property speaks about. -/
def setPriority (r : RoutingRule) (p : Int) : RoutingRule :=
  { r with priority := p }

/-! ## Stream worker failure handling (`worker.py`) -/

/-- Minimal JSON string escaping as performed by `json.dumps` on the plain
decoded field strings (quote and backslash; other escapes do not occur in
the embedded properties). -/
def jsonEscapeChar (c : Char) : String :=
  if c = '"' then "\\\"" else if c = '\\' then "\\\\" else String.singleton c

/-- A JSON string literal. -/
def jsonStr (s : String) : String :=
  "\"" ++ String.join (s.toList.map jsonEscapeChar) ++ "\""

/-- `json.dumps` on the decoded `dict[str, str]` message payload, with the
default `", "` / `": "` separators and insertion order. -/
def encodeJson (xs : List (String × String)) : String :=
  "\x7b" ++ String.intercalate ", "
    (xs.map (fun kv => jsonStr kv.1 ++ ": " ++ jsonStr kv.2)) ++ "\x7d"

/-- One dead-letter entry as `EventWorker._handle_failure` publishes it:
original message id, source stream name, stringified error, JSON-encoded
decoded payload. -/
structure DlqRecord where
  message_id : String
  stream : String
  error : String
  payload : String
deriving DecidableEq, Repr

/-- Side effects of handling one consumed message: the dead-letter publishes
attempted (destination stream and record), how many of those publishes
failed and were only logged, and the ids acknowledged on the source
stream. -/
structure WorkerEffects where
  dlqAttempts : List (String × DlqRecord) := []
  dlqPublishFailuresLogged : Nat := 0
  acks : List String := []
deriving DecidableEq, Repr

/-- A raw Redis field value (`bytes`, since the worker's client uses
`decode_responses=False`): either bytes that decode to a UTF-8 string, or
bytes on which `.decode()` raises `UnicodeDecodeError`. -/
inductive RawVal where
  | utf8 : String → RawVal
  | invalid : RawVal

/-- `EventWorker._decode(value)`: `bytes.decode()` — UTF-8 bytes yield
their string, invalid bytes raise `UnicodeDecodeError`. -/
def decodeRaw : RawVal → Except String String
  | .utf8 s => .ok s
  | .invalid => .error "UnicodeDecodeError: invalid start byte"

/-- `EventWorker._decode_fields(payload)`: decode every key and value of
the raw field map in order; the first invalid byte string raises. -/
def decodeFields : List (RawVal × RawVal) → Except String (List (String × String))
  | [] => .ok []
  | (k, v) :: rest => do
    let ks ← decodeRaw k
    let vs ← decodeRaw v
    let tail ← decodeFields rest
    .ok ((ks, vs) :: tail)

/-- `EventWorker._deserialize_event`: decode all raw fields (raising on
invalid UTF-8), then locate the JSON body, deep-decode nested JSON and
validate into a `RequestEvent` — those later steps are abstracted by
`validate`, which raises (`.error`) or succeeds on the decoded field map. -/
def deserializeEvent (payload : List (RawVal × RawVal))
    (validate : List (String × String) → Except String Unit) :
    Except String Unit := do
  let decoded ← decodeFields payload
  validate decoded

/-- `EventWorker._handle_failure`: serialize the payload with
`json.dumps(self._decode_fields(payload))` — this re-runs the byte decoding,
and on non-UTF-8 field bytes it re-raises *before* the DLQ `xadd` and the
ack, producing no effects and propagating (second component).  Otherwise
publish one record to `f"{stream_key}:dlq"`; a failing publish
(`publishOk = false`) is logged only; the original message is acknowledged
afterwards in both cases. -/
def handleFailure (streamKey streamName messageId : String)
    (payload : List (RawVal × RawVal)) (error : String)
    (publishOk : Bool) : WorkerEffects × Option String :=
  match decodeFields payload with
  | .error e => ({ dlqAttempts := [], dlqPublishFailuresLogged := 0, acks := [] }, some e)
  | .ok decoded =>
    ({ dlqAttempts := [(streamKey ++ ":dlq",
        { message_id := messageId
          stream := streamName
          error := error
          payload := encodeJson decoded })]
       dlqPublishFailuresLogged := if publishOk then 0 else 1
       acks := [messageId] },
     Option.none)

/-- The per-message body of `EventWorker._process_entries`: a
deserialization error and a handler error (outcome of
`EventRouter.handle_event`, reached only when deserialization succeeded,
modelled by `handler`) both go through `_handle_failure`; a handled message
is simply acknowledged.  An exception escaping `_handle_failure` propagates
out of the processing loop (second component). -/
def processMessage (streamKey streamName messageId : String)
    (payload : List (RawVal × RawVal))
    (validate : List (String × String) → Except String Unit)
    (handler : Except String Unit) (publishOk : Bool) :
    WorkerEffects × Option String :=
  match deserializeEvent payload validate with
  | .error e => handleFailure streamKey streamName messageId payload e publishOk
  | .ok _ =>
    match handler with
    | .error e => handleFailure streamKey streamName messageId payload e publishOk
    | .ok _ =>
      ({ dlqAttempts := [], dlqPublishFailuresLogged := 0, acks := [messageId] },
       Option.none)

/-! ## Router manager (`router/manager.py`, `router/config.py`,
`router/schemas.py`) -/

/-- `ModelDeployment` from `router/schemas.py`. -/
structure Deployment where
  model_name : String
  litellm_params : List (String × PyVal) := []
  model_info : Option (List (String × PyVal)) := Option.none

/-- `RouterConfig` from `router/config.py`.  Note: the class declares no
`guardrails` field, although `router/manager.py` reads one (see
`getGuardrails`).  `cooldown_time` (a float knob) is embedded as an
integer; only its equality is ever consulted. -/
structure RouterConfig where
  model_list : List Deployment := []
  routing_strategy : String := "usage-based-routing-v2"
  num_retries : Nat := 3
  fallbacks : List (String × List String) := []
  default_fallbacks : List String := []
  context_window_fallbacks : List (String × List String) := []
  allowed_fails : Nat := 3
  cooldown_time : Int := 30
  enable_pre_call_checks : Bool := true
  enable_tag_filtering : Bool := true
  redis_host : Option String := Option.none
  redis_port : Nat := 6379
  redis_password : Option String := Option.none
  redis_url : Option String := Option.none

/-- The `AttributeError` message raised by pydantic when an undefined
attribute of `RouterConfig` is read. -/
def guardrailsAttributeError : String :=
  "AttributeError: RouterConfig object has no attribute guardrails"

/-- `config.guardrails` / `getattr(config, "guardrails")`: `RouterConfig`
defines no such field and no instance carries it as an extra, so the
attribute access raises `AttributeError`. -/
def RouterConfig.getGuardrails (_ : RouterConfig) : Except String (List PyVal) :=
  .error guardrailsAttributeError

/-- `RouterManager._format_fallbacks`: explicit per-model entries with
truthy target lists first (dict insertion order), then — when the default
fallback list is truthy — one default entry per deployment whose model name
is not among the explicit entry keys (the `existing` key set is computed
once and not updated inside the loop). -/
def formatFallbacks (cfg : RouterConfig) : List (String × List String) :=
  let entries := cfg.fallbacks.filter (fun kv => !kv.2.isEmpty)
  if cfg.default_fallbacks.isEmpty then entries
  else
    let existing := entries.map Prod.fst
    entries ++ cfg.model_list.filterMap (fun d =>
      if existing.contains d.model_name then Option.none
      else some (d.model_name, cfg.default_fallbacks))

/-- `RouterManager._requires_full_rebuild`: `any(...)` over the sensitive
fields in source order; each real field comparison can short-circuit to
`True`, and when all of them are equal the generator reaches the
`"guardrails"` entry, whose `getattr` raises. -/
def requiresFullRebuild (cur nw : RouterConfig) : Except String Bool :=
  if cur.routing_strategy ≠ nw.routing_strategy then .ok true
  else if cur.num_retries ≠ nw.num_retries then .ok true
  else if cur.fallbacks ≠ nw.fallbacks then .ok true
  else if cur.default_fallbacks ≠ nw.default_fallbacks then .ok true
  else if cur.context_window_fallbacks ≠ nw.context_window_fallbacks then .ok true
  else if cur.allowed_fails ≠ nw.allowed_fails then .ok true
  else if cur.cooldown_time ≠ nw.cooldown_time then .ok true
  else if cur.enable_pre_call_checks ≠ nw.enable_pre_call_checks then .ok true
  else if cur.enable_tag_filtering ≠ nw.enable_tag_filtering then .ok true
  else if cur.redis_host ≠ nw.redis_host then .ok true
  else if cur.redis_port ≠ nw.redis_port then .ok true
  else if cur.redis_password ≠ nw.redis_password then .ok true
  else if cur.redis_url ≠ nw.redis_url then .ok true
  else do
    let g1 ← cur.getGuardrails
    let g2 ← nw.getGuardrails
    .ok (decide (g1.length ≠ g2.length))

/-- A live LiteLLM `Router` instance: its identity tag (instance identity)
and the model list it currently serves. -/
structure RouterInst where
  instanceId : Nat
  model_list : List Deployment

/-- `RouterManager`'s mutable state: the cached config, the live router
reference, a fresh-identity counter, the configs persisted through the
repository (most recent first), and how many times the last-reload
timestamp has been stamped. -/
structure ManagerState where
  config : RouterConfig
  router : Option RouterInst := Option.none
  nextInstanceId : Nat := 0
  savedConfigs : List RouterConfig := []
  reloadStamps : Nat := 0

/-- `RouterManager._build_router`: resolves the model list, then reads
`config.guardrails` — which raises `AttributeError` because `RouterConfig`
has no such field — before the `Router` constructor is ever reached. -/
def buildRouter (st : ManagerState) (cfg : RouterConfig) :
    Except String (ManagerState × RouterInst) := do
  let _ ← cfg.getGuardrails
  let inst : RouterInst := { instanceId := st.nextInstanceId, model_list := cfg.model_list }
  .ok ({ st with nextInstanceId := st.nextInstanceId + 1, reloadStamps := st.reloadStamps + 1 },
       inst)

/-- `RouterManager._apply_new_config` under the lock: decide
rebuild-vs-hot-swap, store and persist the new config, then either build a
fresh router or swap the model list on the live instance in place and stamp
the reload time.  The returned `Option String` is the exception propagated
to the caller, paired with the state as mutated up to the raise point. -/
def applyNewConfig (st : ManagerState) (nw : RouterConfig) :
    ManagerState × Option String :=
  match requiresFullRebuild st.config nw with
  | .error e => (st, some e)
  | .ok needsRebuild =>
    let st1 := { st with config := nw, savedConfigs := nw :: st.savedConfigs }
    if st1.router.isNone || needsRebuild then
      match buildRouter st1 nw with
      | .error e => (st1, some e)
      | .ok (st2, inst) => ({ st2 with router := some inst }, Option.none)
    else
      ({ st1 with
          router := st1.router.map (fun r => { r with model_list := nw.model_list })
          reloadStamps := st1.reloadStamps + 1 },
       Option.none)

/-- `RouterManager._matches_deployment_id`: the deployment-scoped id is the
string under `litellm_params["deployment_id"]`, else `litellm_params["id"]`,
else `model_info["id"]`. -/
def matchesDeploymentId (d : Deployment) (deploymentId : String) : Bool :=
  let fromParams (key : String) : Bool :=
    match (PyVal.dict d.litellm_params).get key with
    | .str s => s = deploymentId
    | _ => false
  if fromParams "deployment_id" then true
  else if fromParams "id" then true
  else
    match d.model_info with
    | some info =>
      match (PyVal.dict info).get "id" with
      | .str s => s = deploymentId
      | _ => false
    | Option.none => false

/-- `RouterManager.list_deployments`: the in-memory deployment list of the
cached config. -/
def listDeployments (st : ManagerState) : List Deployment :=
  st.config.model_list

/-- `RouterManager.remove_deployment`: keep deployments whose model name
differs or whose id does not match; raise
`ValueError("Deployment '<id>' for model '<name>' was not found")` when
nothing matched, leaving the state untouched; otherwise reload with the
remaining list. -/
def removeDeployment (st : ManagerState) (modelName deploymentId : String) :
    ManagerState × Option String :=
  let remaining := st.config.model_list.filter (fun d =>
    d.model_name ≠ modelName || !matchesDeploymentId d deploymentId)
  let removed := st.config.model_list.any (fun d =>
    d.model_name = modelName && matchesDeploymentId d deploymentId)
  if removed then
    applyNewConfig st { st.config with model_list := remaining }
  else
    (st, some ("Deployment '" ++ deploymentId ++ "' for model '" ++ modelName
      ++ "' was not found"))

/-! ## Theorems -/

/-- C9: output normalization is idempotent — normalizing a value twice
yields the same result as normalizing it once, and `AgentRunOutput.from_value`
applied to an already-normalized output returns it unchanged. -/
theorem c9_normalization_idempotent (v : PyVal) :
    AgentRunOutput.from_value (AgentRunOutput.from_value v).toVal =
      AgentRunOutput.from_value v ∧
    ∀ o : AgentRunOutput, AgentRunOutput.from_value o.toVal = o := by
  have h : ∀ o : AgentRunOutput, AgentRunOutput.from_value o.toVal = o := by
    intro o
    cases o
    rfl
  exact ⟨h _, h⟩

/-- C10 (counterexample): on the dict `{"content": "", "text": ""}` the
normalized content is the empty string taken verbatim from the `"text"`
key, not `None` as the claim's parenthetical states for a falsy `"text"`
value. -/
theorem c10_counterexample :
    (AgentRunOutput.from_value
        (.dict [("content", .str ""), ("text", .str "")])).content = .str "" ∧
    PyVal.str "" ≠ PyVal.none := by
  exact ⟨rfl, fun h => PyVal.noConfusion h⟩

/-- C10 (amended): when normalizing a dict, a falsy `"content"` value is
ignored and the content is the `"text"` value taken verbatim (so it is
`None` exactly when that key is absent or holds `None`, but a falsy
non-`None` value such as `""` is kept); a truthy `"content"` is kept; and a
falsy `"metadata"` value is replaced by the empty map. -/
theorem c10_amended (xs : List (String × PyVal)) :
    (((PyVal.dict xs).get "content").truthy = false →
      (AgentRunOutput.from_value (.dict xs)).content = (PyVal.dict xs).get "text") ∧
    (((PyVal.dict xs).get "content").truthy = true →
      (AgentRunOutput.from_value (.dict xs)).content = (PyVal.dict xs).get "content") ∧
    (((PyVal.dict xs).get "metadata").truthy = false →
      (AgentRunOutput.from_value (.dict xs)).metadata = .dict []) := by
  refine ⟨fun h => ?_, fun h => ?_, fun h => ?_⟩ <;>
    simp [AgentRunOutput.from_value, pyOr, h]

/-- Witness for C10 (amended) at `{"text": "hi", "metadata": 0}`. -/
theorem c10_amended_witness :
    (AgentRunOutput.from_value
        (.dict [("text", .str "hi"), ("metadata", .int 0)])).content =
      (PyVal.dict [("text", .str "hi"), ("metadata", .int 0)]).get "text" ∧
    (AgentRunOutput.from_value
        (.dict [("text", .str "hi"), ("metadata", .int 0)])).metadata = .dict [] :=
  ⟨(c10_amended [("text", .str "hi"), ("metadata", .int 0)]).1 (by decide),
   (c10_amended [("text", .str "hi"), ("metadata", .int 0)]).2.2 (by decide)⟩

/-- C6: an event carrying a direct `agent_id` routes to `(agent, that id)`
no matter which routing rules are registered and what the default-route
lookup would say. -/
theorem c6_explicit_agent_wins (rm : String → String → Bool)
    (defaultRoute : String → Option (TargetType × Nat))
    (rules : List RoutingRule) (e : Event) (a : Nat)
    (h : e.agent_id = some a) :
    route rm defaultRoute rules e = .ok (.agent, a) := by
  simp [route, extractExplicitTarget, h]

/-- Witness for C6: a concrete event with a direct agent id and a catch-all
rule pointing elsewhere. -/
theorem c6_explicit_agent_wins_witness :
    route (fun _ _ => true) (fun _ => some (.team, 9))
      [{ name := "all", target_type := .workflow, target_id := 5 }]
      { agent_id := some 3 } = .ok (.agent, 3) :=
  c6_explicit_agent_wins _ _ _ _ 3 rfl

/-- `do`-bind on a successful `Except` value. -/
theorem exceptBind_ok {α β γ : Type} (a : α) (f : α → Except γ β) :
    (do
      let x ← (Except.ok a : Except γ α)
      f x) = f a := rfl

/-- `do`-bind on a failed `Except` value. -/
theorem exceptBind_error {α β γ : Type} (e : γ) (f : α → Except γ β) :
    (do
      let x ← (Except.error e : Except γ α)
      f x) = Except.error e := rfl

/-- C2 (counterexample): a message with a non-UTF-8 field value fails
deserialization at the byte-decode step, but `_handle_failure` re-runs
`_decode_fields` on the same raw payload and re-raises before the DLQ
publish and the ack — no dead-letter record is published and the message
is never acknowledged, the exception propagating out of the processing
loop. -/
theorem c2_counterexample :
    processMessage "events:agent_requests" "events:agent_requests" "1-0"
        [(.utf8 "data", .invalid)] (fun _ => .ok ()) (.ok ()) true =
      ({ dlqAttempts := [], dlqPublishFailuresLogged := 0, acks := [] },
       some "UnicodeDecodeError: invalid start byte") := by
  rfl

/-- C2 (amended): for every consumed message whose raw fields all decode as
UTF-8, a failure — whether of the post-decode deserialization steps or of
the routing/execution handler — produces exactly one dead-letter publish to
`<stream>:dlq` carrying the message id, source stream name, stringified
error and JSON-encoded decoded payload, and the original message is then
acknowledged whether or not that publish succeeded (a failed publish is
only logged).  A message with non-UTF-8 field bytes instead re-raises
inside `_handle_failure`'s own decoding, before the dead-letter publish and
the ack, and the exception propagates. -/
theorem c2_amended :
    (∀ (sk sn mid : String) (payload : List (RawVal × RawVal))
        (decoded : List (String × String))
        (validate : List (String × String) → Except String Unit)
        (handler : Except String Unit) (pub : Bool) (err : String),
      decodeFields payload = .ok decoded →
      (validate decoded = .error err ∨
        (validate decoded = .ok () ∧ handler = .error err)) →
      processMessage sk sn mid payload validate handler pub =
        ({ dlqAttempts := [(sk ++ ":dlq",
            { message_id := mid, stream := sn, error := err,
              payload := encodeJson decoded })]
           dlqPublishFailuresLogged := if pub then 0 else 1
           acks := [mid] },
         Option.none)) ∧
    (∀ (sk sn mid : String) (payload : List (RawVal × RawVal))
        (validate : List (String × String) → Except String Unit)
        (handler : Except String Unit) (pub : Bool) (e : String),
      decodeFields payload = .error e →
      processMessage sk sn mid payload validate handler pub =
        ({ dlqAttempts := [], dlqPublishFailuresLogged := 0, acks := [] },
         some e)) := by
  constructor
  · intro sk sn mid payload decoded validate handler pub err h1 h2
    have hdes : deserializeEvent payload validate = validate decoded := by
      simp only [deserializeEvent, h1, exceptBind_ok]
    have hhf : handleFailure sk sn mid payload err pub =
        ({ dlqAttempts := [(sk ++ ":dlq",
            { message_id := mid, stream := sn, error := err,
              payload := encodeJson decoded })]
           dlqPublishFailuresLogged := if pub then 0 else 1
           acks := [mid] },
         Option.none) := by
      simp only [handleFailure, h1]
    rcases h2 with h2 | ⟨h2, h3⟩
    · simp only [processMessage, hdes, h2]
      exact hhf
    · simp only [processMessage, hdes, h2, h3]
      exact hhf
  · intro sk sn mid payload validate handler pub e h1
    have hdes : deserializeEvent payload validate = .error e := by
      simp only [deserializeEvent, h1, exceptBind_error]
    simp only [processMessage, hdes, handleFailure, h1]

/-- Witness for C2 (amended): concrete handler failure with a failing
dead-letter publish, and a concrete non-UTF-8 message that propagates. -/
theorem c2_amended_witness :
    processMessage "events:agent_requests" "events:agent_requests" "1-0"
        [(.utf8 "data", .utf8 "oops")] (fun _ => .ok ()) (.error "boom") false =
      ({ dlqAttempts := [("events:agent_requests:dlq",
          { message_id := "1-0", stream := "events:agent_requests",
            error := "boom", payload := encodeJson [("data", "oops")] })]
         dlqPublishFailuresLogged := 1
         acks := ["1-0"] },
       Option.none) ∧
    processMessage "events:agent_requests" "events:agent_requests" "2-0"
        [(.invalid, .utf8 "x")] (fun _ => .ok ()) (.ok ()) true =
      ({ dlqAttempts := [], dlqPublishFailuresLogged := 0, acks := [] },
       some "UnicodeDecodeError: invalid start byte") :=
  ⟨c2_amended.1 "events:agent_requests" "events:agent_requests" "1-0"
      [(.utf8 "data", .utf8 "oops")] [("data", "oops")] (fun _ => .ok ())
      (.error "boom") false "boom" rfl (Or.inr ⟨rfl, rfl⟩),
   c2_amended.2 "events:agent_requests" "events:agent_requests" "2-0"
      [(.invalid, .utf8 "x")] (fun _ => .ok ()) (.ok ()) true
      "UnicodeDecodeError: invalid start byte" rfl⟩

/-- C8: removing a `(model name, deployment id)` pair that matches no
deployment raises `DeploymentNotFound` (the `ValueError` with the
not-found message) and leaves the manager state — hence `listDeployments()`
— unchanged. -/
theorem c8_remove_missing_deployment (st : ManagerState) (m i : String)
    (h : ∀ d ∈ st.config.model_list,
      ¬(d.model_name = m ∧ matchesDeploymentId d i = true)) :
    removeDeployment st m i =
      (st, some ("Deployment '" ++ i ++ "' for model '" ++ m ++ "' was not found")) ∧
    listDeployments (removeDeployment st m i).1 = listDeployments st := by
  have hany : st.config.model_list.any
      (fun d => d.model_name = m && matchesDeploymentId d i) = false := by
    rw [List.any_eq_false]
    intro d hd
    have := h d hd
    simp only [Bool.and_eq_true, decide_eq_true_eq]
    intro hcontra
    exact this ⟨hcontra.1, hcontra.2⟩
  have hrem : removeDeployment st m i =
      (st, some ("Deployment '" ++ i ++ "' for model '" ++ m ++ "' was not found")) := by
    simp [removeDeployment, hany]
  exact ⟨hrem, by rw [hrem]⟩

/-- The single deployment of the C8 witness state. -/
def gptD2 : Deployment :=
  { model_name := "gpt", litellm_params := [("deployment_id", .str "d2")] }

/-- Manager state of the C8 witness: one `gpt` deployment with id `d2`. -/
def stWitnessC8 : ManagerState := { config := { model_list := [gptD2] } }

/-- Witness for C8: one `gpt`/`d2` deployment; removing `("gpt", "d1")`
fails and the deployment list is untouched. -/
theorem c8_remove_missing_deployment_witness :
    removeDeployment stWitnessC8 "gpt" "d1" =
      (stWitnessC8,
       some ("Deployment '" ++ "d1" ++ "' for model '" ++ "gpt" ++ "' was not found")) :=
  (c8_remove_missing_deployment stWitnessC8 "gpt" "d1" (by
    intro d hd
    simp only [stWitnessC8, List.mem_singleton] at hd
    subst hd
    intro hcontra
    have h2 : matchesDeploymentId gptD2 "d1" = true := hcontra.2
    simp [matchesDeploymentId, gptD2, PyVal.get, List.lookup] at h2)).1

/-- Configuration used by the C4 counterexample: two deployments sharing the
model name `gpt`, no explicit fallbacks, one default fallback. -/
def cfgSharedName : RouterConfig :=
  { model_list :=
      [{ model_name := "gpt", litellm_params := [("deployment_id", .str "d1")] },
       { model_name := "gpt", litellm_params := [("deployment_id", .str "d2")] }]
    fallbacks := []
    default_fallbacks := ["backup"] }

/-- C4 (counterexample): with two deployments sharing the model name `gpt`
(the data model explicitly allows shared names for weighted pools), the
built dispatch fallback list holds two entries for `gpt`, so "every model
name ends up with at most one fallback entry" fails: the `existing` key set
is computed before the loop and never updated. -/
theorem c4_counterexample :
    formatFallbacks cfgSharedName = [("gpt", ["backup"]), ("gpt", ["backup"])] ∧
    (formatFallbacks cfgSharedName).countP (fun kv => kv.1 == "gpt") = 2 := by
  exact ⟨rfl, rfl⟩

/-- Counting entries with a given key equals counting the key among the
mapped-out keys. -/
theorem countP_key_eq (l : List (String × List String)) (m : String) :
    l.countP (fun kv => kv.1 == m) = (l.map Prod.fst).countP (· == m) := by
  rw [List.countP_map]
  rfl

/-- A duplicate-free list of strings holds any given string at most once. -/
theorem nodup_countP_le_one (L : List String) (h : L.Nodup) (m : String) :
    L.countP (· == m) ≤ 1 := by
  induction L with
  | nil => simp
  | cons a t ih =>
    rw [List.countP_cons]
    rcases List.nodup_cons.mp h with ⟨hat, ht⟩
    by_cases ham : a = m
    · subst ham
      have hz : t.countP (· == a) = 0 := by
        rw [List.countP_eq_zero]
        intro b hb
        simp only [beq_iff_eq]
        intro hba
        exact hat (hba ▸ hb)
      simp [hz]
    · simp only [beq_iff_eq, ham]
      simpa using ih ht

/-- The default-fallback entries appended by `formatFallbacks` carry the
names of the deployments whose model name is not an explicit-entry key. -/
theorem formatFallbacks_appended_keys (l : List Deployment)
    (existing : List String) (dfl : List String) :
    (l.filterMap (fun d =>
        if existing.contains d.model_name then Option.none
        else some (d.model_name, dfl))).map Prod.fst =
      (l.filter (fun d => !existing.contains d.model_name)).map
        Deployment.model_name := by
  induction l with
  | nil => rfl
  | cons d t ih =>
    cases hcb : existing.contains d.model_name <;>
      simp only [List.filterMap_cons, List.filter_cons, hcb] <;>
      simpa using ih

/-- C4 (amended): when the deployment model names are pairwise distinct
(and the fallback map's keys are distinct, as a Python dict's always are),
every model name has at most one entry in the built dispatch fallback list;
non-empty explicit entries are kept; a deployment without a non-empty
explicit entry gets the default list when it is non-empty; and scenario D
(`fallbacks={}`, `default_fallbacks=["backup"]`, deployments `primary` and
`backup`) builds exactly `[{"primary": ["backup"]}, {"backup": ["backup"]}]`
— one entry per deployment, no duplicate for `backup`. -/
theorem c4_amended (cfg : RouterConfig)
    (hmodels : (cfg.model_list.map Deployment.model_name).Nodup)
    (hkeys : (cfg.fallbacks.map Prod.fst).Nodup) :
    (∀ m, (formatFallbacks cfg).countP (fun kv => kv.1 == m) ≤ 1) ∧
    (∀ m ts, (m, ts) ∈ cfg.fallbacks → ts ≠ [] → (m, ts) ∈ formatFallbacks cfg) ∧
    (∀ d ∈ cfg.model_list, cfg.default_fallbacks ≠ [] →
      (∀ ts, (d.model_name, ts) ∈ cfg.fallbacks → ts = []) →
      (d.model_name, cfg.default_fallbacks) ∈ formatFallbacks cfg) ∧
    formatFallbacks
        { model_list := [{ model_name := "primary" }, { model_name := "backup" }]
          fallbacks := []
          default_fallbacks := ["backup"] } =
      [("primary", ["backup"]), ("backup", ["backup"])] := by
  refine ⟨?_, ?_, ?_, rfl⟩
  · intro m
    by_cases hdf : cfg.default_fallbacks.isEmpty
    · rw [formatFallbacks, if_pos hdf, countP_key_eq]
      refine nodup_countP_le_one _ ?_ m
      exact ((List.filter_sublist cfg.fallbacks).map Prod.fst).nodup hkeys
    · rw [formatFallbacks, if_neg hdf, List.countP_append, countP_key_eq, countP_key_eq,
        formatFallbacks_appended_keys]
      have hEnodup : ((cfg.fallbacks.filter (fun kv => !kv.2.isEmpty)).map Prod.fst).Nodup :=
        ((List.filter_sublist cfg.fallbacks).map Prod.fst).nodup hkeys
      have hAnodup : ((cfg.model_list.filter
          (fun d => !((cfg.fallbacks.filter (fun kv => !kv.2.isEmpty)).map
            Prod.fst).contains d.model_name)).map Deployment.model_name).Nodup :=
        ((List.filter_sublist cfg.model_list).map Deployment.model_name).nodup hmodels
      have hE1 := nodup_countP_le_one _ hEnodup m
      have hA1 := nodup_countP_le_one _ hAnodup m
      by_cases hmem : m ∈ (cfg.fallbacks.filter (fun kv => !kv.2.isEmpty)).map Prod.fst
      · have hz : ((cfg.model_list.filter
            (fun d => !((cfg.fallbacks.filter (fun kv => !kv.2.isEmpty)).map
              Prod.fst).contains d.model_name)).map Deployment.model_name).countP
              (· == m) = 0 := by
          rw [List.countP_eq_zero]
          intro b hb
          simp only [beq_iff_eq]
          intro hbm
          subst hbm
          rcases List.mem_map.mp hb with ⟨d, hd, hdm⟩
          rcases List.mem_filter.mp hd with ⟨_, hdnot⟩
          rw [hdm] at hdnot
          simp only [Bool.not_eq_true'] at hdnot
          have hcon : ((cfg.fallbacks.filter (fun kv => !kv.2.isEmpty)).map
              Prod.fst).contains b = true := by
            simp [hmem]
          rw [hcon] at hdnot
          exact Bool.noConfusion hdnot
        omega
      · have hz : ((cfg.fallbacks.filter (fun kv => !kv.2.isEmpty)).map
            Prod.fst).countP (· == m) = 0 := by
          rw [List.countP_eq_zero]
          intro b hb
          simp only [beq_iff_eq]
          intro hbm
          exact hmem (hbm ▸ hb)
        omega
  · intro m ts hmem hts
    have hfil : (m, ts) ∈ cfg.fallbacks.filter (fun kv => !kv.2.isEmpty) := by
      refine List.mem_filter.mpr ⟨hmem, ?_⟩
      simp [hts]
    by_cases hdf : cfg.default_fallbacks.isEmpty
    · rw [formatFallbacks, if_pos hdf]
      exact hfil
    · rw [formatFallbacks, if_neg hdf]
      exact List.mem_append_left _ hfil
  · intro d hd hdfl hnone
    have hdf : ¬cfg.default_fallbacks.isEmpty := by
      simpa [List.isEmpty_iff] using hdfl
    rw [formatFallbacks, if_neg hdf]
    refine List.mem_append_right _ ?_
    refine List.mem_filterMap.mpr ⟨d, hd, ?_⟩
    have hnotin : d.model_name ∉ ((cfg.fallbacks.filter (fun kv => !kv.2.isEmpty)).map
        Prod.fst) := by
      intro hin
      rcases List.mem_map.mp hin with ⟨kv, hkv, hkvm⟩
      rcases kv with ⟨k1, k2⟩
      simp only at hkvm
      subst hkvm
      rcases List.mem_filter.mp hkv with ⟨hkvmem, hkvne⟩
      have hts : k2 = [] := hnone k2 hkvmem
      simp [hts] at hkvne
    rw [if_neg (by simpa using hnotin)]

/-- Scenario D configuration: distinct model names `primary` and `backup`,
no explicit fallbacks, default fallback `["backup"]`. -/
def cfgScenarioD : RouterConfig :=
  { model_list := [{ model_name := "primary" }, { model_name := "backup" }]
    fallbacks := []
    default_fallbacks := ["backup"] }

/-- Witness for C4 (amended) on the scenario D configuration. -/
theorem c4_amended_witness :
    (formatFallbacks cfgScenarioD).countP (fun kv => kv.1 == "primary") ≤ 1 ∧
    ({ model_name := "primary" } : Deployment) ∈ cfgScenarioD.model_list ∧
    ("primary", cfgScenarioD.default_fallbacks) ∈ formatFallbacks cfgScenarioD :=
  ⟨(c4_amended cfgScenarioD (by decide) (by decide)).1 "primary",
   by simp [cfgScenarioD],
   (c4_amended cfgScenarioD (by decide) (by decide)).2.2.1
     { model_name := "primary" } (by simp [cfgScenarioD]) (by decide)
     (fun ts hts => by simp [cfgScenarioD] at hts)⟩

/-- Base configuration of the C3 evaluation: one deployment. -/
def cfgC3Base : RouterConfig :=
  { model_list := [{ model_name := "primary" }] }

/-- Same configuration with one deployment appended (only `model_list`
differs). -/
def cfgC3Models : RouterConfig :=
  { cfgC3Base with
      model_list := [{ model_name := "primary" }, { model_name := "backup" }] }

/-- Same configuration with a different `routing_strategy`. -/
def cfgC3Strategy : RouterConfig :=
  { cfgC3Base with routing_strategy := "least-busy" }

/-- Manager state of the C3 evaluation: a live router instance exists, so
the in-place hot-swap branch would be the one taken if the rebuild decision
returned `False`. -/
def stC3 : ManagerState :=
  { config := cfgC3Base
    router := some { instanceId := 0, model_list := cfgC3Base.model_list }
    nextInstanceId := 1 }

/-- C3 (code bug evaluation): replacing the configuration with one that
differs only in the deployment list makes `_requires_full_rebuild` reach
the `"guardrails"` entry of its sensitive-field list and raise
`AttributeError` (`RouterConfig` declares no such field), so the call
raises instead of swapping the model list in place; replacing with a
different `routing_strategy` short-circuits the field scan to `True` but
then `_build_router` itself reads `config.guardrails` and raises as well.
No reload path can succeed, contradicting the claimed hot-swap/rebuild
behaviour. -/
theorem c3_code_bug :
    requiresFullRebuild cfgC3Base cfgC3Models = .error guardrailsAttributeError ∧
    applyNewConfig stC3 cfgC3Models = (stC3, some guardrailsAttributeError) ∧
    requiresFullRebuild cfgC3Base cfgC3Strategy = .ok true ∧
    (applyNewConfig stC3 cfgC3Strategy).2 = some guardrailsAttributeError := by
  refine ⟨?_, ?_, ?_, ?_⟩ <;> rfl

/-- Looking up the key just inserted at the head of the record table. -/
theorem lookup_cons_self (n : Nat) (r : ExecRecord) (t : List (Nat × ExecRecord)) :
    List.lookup n ((n, r) :: t) = some r := by
  simp [List.lookup]

/-- Replacing the row at the head of the record table. -/
theorem setRecord_cons_self (t : List (Nat × ExecRecord)) (n : Nat)
    (r r' : ExecRecord) : setRecord ((n, r) :: t) n r' = (n, r') :: t := by
  simp [setRecord]

/-- `_update_execution_success` with a falsy token value commits the
completed row without touching the token columns. -/
theorem updateExecutionSuccess_falsy (st : EngineStore) (i : Nat)
    (output : PyVal) (dur : Nat) (tokens : PyVal) (fin : Nat)
    (rec0 : ExecRecord) (hlook : st.records.lookup i = some rec0)
    (h : tokens.truthy = false) :
    updateExecutionSuccess st i output dur tokens fin =
      ({ st with records :=
          (setRecord st.records i
            { rec0 with
                status := .completed
                output_payload := some output
                duration_ms := some dur
                finished_at := some fin
                error_message := Option.none }) },
       Option.none) := by
  simp [updateExecutionSuccess, hlook, h]

/-- `_update_execution_success` with a dict token value commits the
completed row, reading the token columns off the dict when it is
non-empty. -/
theorem updateExecutionSuccess_dict (st : EngineStore) (i : Nat)
    (output : PyVal) (dur : Nat) (xs : List (String × PyVal)) (fin : Nat)
    (rec0 : ExecRecord) (hlook : st.records.lookup i = some rec0) :
    updateExecutionSuccess st i output dur (.dict xs) fin =
      ({ st with records :=
          (setRecord st.records i
            { rec0 with
                status := .completed
                output_payload := some output
                duration_ms := some dur
                finished_at := some fin
                error_message := Option.none
                prompt_tokens := if (PyVal.dict xs).truthy
                  then (PyVal.dict xs).get "prompt_tokens" else rec0.prompt_tokens
                completion_tokens := if (PyVal.dict xs).truthy
                  then (PyVal.dict xs).get "completion_tokens" else rec0.completion_tokens
                total_tokens := if (PyVal.dict xs).truthy
                  then (PyVal.dict xs).get "total_tokens" else rec0.total_tokens }) },
       Option.none) := by
  cases hxe : (PyVal.dict xs).truthy
  · simp [updateExecutionSuccess, hlook, hxe]
  · simp [updateExecutionSuccess, pyCallGet, hlook, hxe]

/-- Store of the C1 evaluation: empty database. -/
def stC1 : EngineStore := { records := [], nextId := 0, clock := 0 }

/-- C1 (counterexample): a runnable returning `{"tokens": 5}` normalizes
fine, but `_update_execution_success` then calls `.get` on the truthy
non-dict token value and raises `AttributeError` before the commit: the
exception propagates out of the run instead of a FAILED result being
returned, and the one created record is left in the non-terminal RUNNING
state. -/
theorem c1_counterexample :
    (runTarget stC1 .agent 1 "hi" Option.none Option.none []
        (.ok (.dict [("tokens", .int 5)]))).2 =
      .error "AttributeError: 'int' object has no attribute 'get'" ∧
    ((runTarget stC1 .agent 1 "hi" Option.none Option.none []
        (.ok (.dict [("tokens", .int 5)]))).1.records.lookup 0).map
      ExecRecord.status = some .running := by
  exact ⟨rfl, rfl⟩

/-- C1 (amended): whenever the initial PENDING record is created,
`_run_target` returns normally with exactly one new execution record — the
one it created — left in a terminal state (FAILED with the stringified
exception as `error_message` when resolution/invocation raised, COMPLETED
with the normalized output and a cleared error when it returned),
*provided* that on success the normalized token value is falsy or a dict;
a truthy non-dict `"tokens"` value instead makes the success update raise
`AttributeError` at `tokens.get(...)` before commit, the exception
propagating out of the run with the record left RUNNING. -/
theorem c1_amended (st : EngineStore) (tt : TargetType)
    (tid : Nat) (it : String) (sid : Option String) (uid : Option Nat)
    (md : List (String × PyVal)) (invoke : Except String PyVal)
    (hTok : ∀ raw out tokens, invoke = .ok raw →
      normalizeOutput raw = .ok (out, tokens) →
      tokens.truthy = false ∨ ∃ xs, tokens = PyVal.dict xs) :
    ∃ (st' : EngineStore) (rec : ExecRecord),
      runTarget st tt tid it sid uid md invoke = (st', .ok rec) ∧
      st'.records = (st.nextId, rec) :: st.records ∧
      (rec.status = .completed ∨ rec.status = .failed) ∧
      (∀ e, invoke = .error e →
        rec.status = .failed ∧ rec.error_message = some e ∧
        rec.output_payload = Option.none) ∧
      (∀ raw out tokens, invoke = .ok raw → normalizeOutput raw = .ok (out, tokens) →
        rec.status = .completed ∧ rec.output_payload = some out ∧
        rec.error_message = Option.none) := by
  cases invoke with
  | error e =>
    have hattempt : (do
        let raw ← (Except.error e : Except String PyVal)
        normalizeOutput raw) = (Except.error e : Except String (PyVal × PyVal)) := rfl
    simp only [runTarget, createExecutionRecord, markExecutionRunning,
      updateExecutionFailure, lookup_cons_self, setRecord_cons_self, hattempt]
    refine ⟨_, _, rfl, rfl, Or.inr rfl, ?_, ?_⟩
    · intro e' he'
      injection he' with he'
      subst he'
      exact ⟨rfl, rfl, rfl⟩
    · intro raw out tokens hok
      exact Except.noConfusion hok
  | ok raw =>
    have hattempt : (do
        let raw' ← (Except.ok raw : Except String PyVal)
        normalizeOutput raw') = normalizeOutput raw := rfl
    cases hN : normalizeOutput raw with
    | ok p =>
      obtain ⟨out, tokens⟩ := p
      rcases hTok raw out tokens rfl hN with htok | ⟨xs, rfl⟩
      · simp only [runTarget, createExecutionRecord, markExecutionRunning,
          lookup_cons_self, setRecord_cons_self, hattempt, hN]
        rw [updateExecutionSuccess_falsy _ _ _ _ _ _ _ (lookup_cons_self _ _ _) htok]
        simp only [setRecord_cons_self, lookup_cons_self]
        refine ⟨_, _, rfl, rfl, ?_, ?_, ?_⟩
        · exact Or.inl rfl
        · intro e' he'
          exact Except.noConfusion he'
        · intro raw' out' tokens' hok hN'
          injection hok with hraw
          subst hraw
          rw [hN] at hN'
          injection hN' with hp
          injection hp with hout htok'
          subst hout
          exact ⟨rfl, rfl, rfl⟩
      · simp only [runTarget, createExecutionRecord, markExecutionRunning,
          lookup_cons_self, setRecord_cons_self, hattempt, hN]
        rw [updateExecutionSuccess_dict _ _ _ _ _ _ _ (lookup_cons_self _ _ _)]
        simp only [setRecord_cons_self, lookup_cons_self]
        refine ⟨_, _, rfl, rfl, ?_, ?_, ?_⟩
        · exact Or.inl rfl
        · intro e' he'
          exact Except.noConfusion he'
        · intro raw' out' tokens' hok hN'
          injection hok with hraw
          subst hraw
          rw [hN] at hN'
          injection hN' with hp
          injection hp with hout htok'
          subst hout
          exact ⟨rfl, rfl, rfl⟩
    | error e =>
      simp only [runTarget, createExecutionRecord, markExecutionRunning,
        updateExecutionFailure, lookup_cons_self, setRecord_cons_self,
        hattempt, hN]
      refine ⟨_, _, rfl, rfl, Or.inr rfl, ?_, ?_⟩
      · intro e' he'
        exact Except.noConfusion he'
      · intro raw' out' tokens' hok hN'
        injection hok with hraw
        subst hraw
        rw [hN] at hN'
        exact Except.noConfusion hN'

/-- Witness for C1 (amended) at a concrete store and a runnable returning
a plain string (normalized token value `None`, i.e. falsy). -/
theorem c1_amended_witness :
    ∃ (st' : EngineStore) (rec : ExecRecord),
      runTarget stC1 .agent 1 "hi" Option.none Option.none []
          (.ok (.str "done")) = (st', .ok rec) ∧
      (rec.status = .completed ∨ rec.status = .failed) :=
  match c1_amended stC1 .agent 1 "hi" Option.none Option.none []
      (.ok (.str "done"))
      (by
        intro raw out tokens h1 h2
        injection h1 with h1
        subst h1
        have hN2 : normalizeOutput (PyVal.str "done") =
            Except.ok
              (PyVal.dict [("content", PyVal.str "done"),
                ("structured_data", PyVal.none), ("metadata", PyVal.dict [])],
               PyVal.none) := rfl
        rw [hN2] at h2
        injection h2 with h2
        injection h2 with hout htok
        subst htok
        exact Or.inl rfl) with
  | ⟨st', rec, h1, _, h3, _, _⟩ => ⟨st', rec, h1, h3⟩

/-- A pattern oracle that matches everything (stands for `re.search` with a
universally-matching regex behaviour). -/
def rmAll : String → String → Bool := fun _ _ => true

/-- A catch-all routing rule (no patterns) targeting agent `7`. -/
def ruleCatchAll : RoutingRule := { name := "all", target_type := .agent, target_id := 7 }

/-- A canonical UUID string. -/
def uuidStrEx : String := "123e4567-e89b-12d3-a456-426614174000"

/-- Event of the C5 counterexample: no direct agent id, and a `team_id`
given as a canonical UUID *string* in the metadata. -/
def eventC5 : Event := { metadata := [("team_id", .str uuidStrEx)] }

/-- C5 (counterexample): the metadata `team_id` is a string that parses as
a UUID (so per the claim it should win and be returned as `(team, id)`
before rules are consulted), yet `EventRouter._extract_explicit_target`
ignores it — it accepts only `UUID` instances — and `route` falls through
to the registered catch-all rule, returning `(agent, 7)`. -/
theorem c5_counterexample :
    (maybeUuid (eventKeyValue eventC5 "team_id")).isSome = true ∧
    extractExplicitTarget eventC5 = Option.none ∧
    route rmAll (fun _ => Option.none) [ruleCatchAll] eventC5 = .ok (.agent, 7) := by
  refine ⟨by decide, rfl, rfl⟩

/-- C5 (amended): for an event with no direct agent id,
`ExecutionEngine._resolve_event_target` checks `team_id` → `workflow_id` →
`agent_id` in metadata-then-payload and the first value `_maybe_uuid` can
parse — including a valid UUID given as a string — wins; in
`EventRouter`, the pre-rule extraction checks the same keys in the same
order but accepts only actual `UUID` instances, so a `team_id` UUID
instance wins over any rules, while a UUID given as a string is ignored
and the routing rules are consulted instead. -/
theorem c5_amended :
    (∀ (e : Event) (u : Nat) (rm : String → String → Bool)
        (dflt : String → Option (TargetType × Nat)) (rules : List RoutingRule),
      e.agent_id = Option.none →
      eventKeyValue e "team_id" = PyVal.uuid u →
      route rm dflt rules e = .ok (.team, u)) ∧
    (∀ (e : Event) (u : Nat),
      e.agent_id = Option.none →
      maybeUuid (eventKeyValue e "team_id") = some u →
      resolveEventTarget e = .ok (.team, u)) ∧
    (∀ (e : Event) (u : Nat),
      e.agent_id = Option.none →
      maybeUuid (eventKeyValue e "team_id") = Option.none →
      maybeUuid (eventKeyValue e "workflow_id") = some u →
      resolveEventTarget e = .ok (.workflow, u)) ∧
    (∀ (e : Event) (u : Nat),
      e.agent_id = Option.none →
      maybeUuid (eventKeyValue e "team_id") = Option.none →
      maybeUuid (eventKeyValue e "workflow_id") = Option.none →
      maybeUuid (eventKeyValue e "agent_id") = some u →
      resolveEventTarget e = .ok (.agent, u)) ∧
    (∀ (e : Event) (s : String),
      e.agent_id = Option.none →
      eventKeyValue e "team_id" = PyVal.str s →
      eventKeyValue e "workflow_id" = PyVal.none →
      eventKeyValue e "agent_id" = PyVal.none →
      extractExplicitTarget e = Option.none) := by
  refine ⟨?_, ?_, ?_, ?_, ?_⟩
  · intro e u rm dflt rules h0 h1
    simp only [route, extractExplicitTarget, h0, h1]
  · intro e u h0 h1
    simp only [resolveEventTarget, h0, h1]
  · intro e u h0 h1 h2
    simp only [resolveEventTarget, h0, h1, h2]
  · intro e u h0 h1 h2 h3
    simp only [resolveEventTarget, h0, h1, h2, h3]
  · intro e s h0 h1 h2 h3
    simp only [extractExplicitTarget, h0, h1, h2, h3]

/-- Witness for C5 (amended): for the engine resolver, a string `team_id`
parses and wins; for the router extraction, a `UUID`-instance `team_id`
wins over a conflicting catch-all rule. -/
theorem c5_amended_witness :
    resolveEventTarget eventC5 = .ok (.team, 0x123e4567e89b12d3a456426614174000) ∧
    route rmAll (fun _ => Option.none) [ruleCatchAll]
      { metadata := [("team_id", .uuid 42)] } = .ok (.team, 42) :=
  ⟨c5_amended.2.1 eventC5 0x123e4567e89b12d3a456426614174000 rfl (by decide),
   c5_amended.1 { metadata := [("team_id", .uuid 42)] } 42 rmAll
     (fun _ => Option.none) [ruleCatchAll] rfl rfl⟩

/-- Descending-priority ordering between rules. -/
def RelDesc (a b : RoutingRule) : Prop := b.priority ≤ a.priority

/-- Membership in a stable descending insertion. -/
theorem mem_insertRuleDesc {x r : RoutingRule} {l : List RoutingRule} :
    x ∈ insertRuleDesc r l ↔ x = r ∨ x ∈ l := by
  induction l with
  | nil => simp [insertRuleDesc]
  | cons a t ih =>
    by_cases hc : a.priority ≤ r.priority
    · rw [insertRuleDesc, if_pos hc]
      simp
    · rw [insertRuleDesc, if_neg hc]
      simp only [List.mem_cons, ih]
      tauto

/-- Stable descending insertion preserves the descending invariant. -/
theorem pairwise_insertRuleDesc (r : RoutingRule) (l : List RoutingRule)
    (h : l.Pairwise RelDesc) : (insertRuleDesc r l).Pairwise RelDesc := by
  induction l with
  | nil => simp [insertRuleDesc, RelDesc]
  | cons a t ih =>
    rcases List.pairwise_cons.mp h with ⟨ha, ht⟩
    by_cases hc : a.priority ≤ r.priority
    · rw [insertRuleDesc, if_pos hc]
      refine List.pairwise_cons.mpr ⟨?_, h⟩
      intro y hy
      rcases List.mem_cons.mp hy with hy | hy
      · exact hy ▸ hc
      · exact le_trans (ha y hy) hc
    · rw [insertRuleDesc, if_neg hc]
      refine List.pairwise_cons.mpr ⟨?_, ih ht⟩
      intro y hy
      rcases mem_insertRuleDesc.mp hy with hy | hy
      · subst hy
        exact le_of_not_le hc
      · exact ha y hy

/-- The sorted rule list is descending in priority. -/
theorem sortRulesDesc_pairwise (l : List RoutingRule) :
    (sortRulesDesc l).Pairwise RelDesc := by
  induction l with
  | nil => exact List.Pairwise.nil
  | cons r t ih => exact pairwise_insertRuleDesc r _ ih

/-- How `find?` interacts with one stable descending insertion into an
already-descending list: the inserted element is picked exactly when it
satisfies the predicate and no strictly-higher-priority element already
does. -/
theorem find?_insertRuleDesc (p : RoutingRule → Bool) (r : RoutingRule)
    (L : List RoutingRule) (hL : L.Pairwise RelDesc) :
    (insertRuleDesc r L).find? p =
      match L.find? p with
      | Option.none => if p r then some r else Option.none
      | some b => if p r && b.priority ≤ r.priority then some r else some b := by
  induction L with
  | nil =>
    simp only [insertRuleDesc, List.find?_nil]
    cases hpr : p r <;> simp [List.find?, hpr]
  | cons x xs ih =>
    rcases List.pairwise_cons.mp hL with ⟨hx, hxs⟩
    by_cases hc : x.priority ≤ r.priority
    · rw [insertRuleDesc, if_pos hc]
      cases hpr : p r
      · rw [List.find?_cons_of_neg _ (by simp [hpr])]
        cases hfind : (x :: xs).find? p <;> simp [hpr]
      · rw [List.find?_cons_of_pos _ hpr]
        cases hfind : (x :: xs).find? p with
        | none => simp [hpr]
        | some b =>
          have hb : b ∈ x :: xs := List.mem_of_find?_eq_some hfind
          have hble : b.priority ≤ r.priority := by
            rcases List.mem_cons.mp hb with hb | hb
            · exact hb ▸ hc
            · exact le_trans (hx b hb) hc
          simp [hpr, hble]
    · rw [insertRuleDesc, if_neg hc]
      cases hpx : p x
      · rw [List.find?_cons_of_neg _ (by simp [hpx]),
          List.find?_cons_of_neg _ (by simp [hpx])]
        exact ih hxs
      · rw [List.find?_cons_of_pos _ hpx, List.find?_cons_of_pos _ hpx]
        have hnot : (p r && decide (x.priority ≤ r.priority)) = false := by
          simp only [Bool.and_eq_false_iff, decide_eq_false_iff_not]
          exact Or.inr hc
        simp [hnot]

/-- The rule scan of `EventRouter.route` computes exactly the
spec-characterised best rule: highest priority among matching rules, ties
broken by insertion order. -/
theorem ruleSelect_eq_bestRule (rm : String → String → Bool) (e : Event)
    (rules : List RoutingRule) :
    ruleSelect rm e rules = bestRule rm e rules := by
  induction rules with
  | nil => rfl
  | cons r rs ih =>
    rw [ruleSelect, sortRulesDesc,
      find?_insertRuleDesc _ _ _ (sortRulesDesc_pairwise rs)]
    rw [ruleSelect] at ih
    rw [ih]
    rfl

/-- A selected best rule matches the event and belongs to the rule list. -/
theorem bestRule_some_matches_mem (rm : String → String → Bool) (e : Event)
    (rules : List RoutingRule) (b : RoutingRule)
    (h : bestRule rm e rules = some b) :
    b.matches rm e = true ∧ b ∈ rules := by
  induction rules generalizing b with
  | nil => exact Option.noConfusion h
  | cons a t ih =>
    cases hbt : bestRule rm e t with
    | none =>
      simp only [bestRule, hbt] at h
      cases hma : a.matches rm e with
      | false => simp [hma] at h
      | true =>
        simp only [hma, if_true] at h
        injection h with hab
        subst hab
        exact ⟨hma, List.mem_cons_self _ _⟩
    | some bb =>
      simp only [bestRule, hbt] at h
      rcases ih bb hbt with ⟨hbbm, hbbmem⟩
      cases hcond : (a.matches rm e && decide (bb.priority ≤ a.priority)) with
      | true =>
        rw [hcond, if_pos rfl] at h
        injection h with hab
        subst hab
        simp only [Bool.and_eq_true] at hcond
        exact ⟨hcond.1, List.mem_cons_self _ _⟩
      | false =>
        rw [hcond] at h
        simp only [Bool.false_eq_true, if_false] at h
        injection h with hab
        subst hab
        exact ⟨hbbm, List.mem_cons_of_mem _ hbbmem⟩

/-- The best rule is `none` exactly when no rule matches the event. -/
theorem bestRule_eq_none_iff (rm : String → String → Bool) (e : Event)
    (rules : List RoutingRule) :
    bestRule rm e rules = Option.none ↔
      ∀ r ∈ rules, r.matches rm e = false := by
  induction rules with
  | nil => simp [bestRule]
  | cons a t ih =>
    cases hbt : bestRule rm e t with
    | none =>
      have ht := ih.mp hbt
      simp only [bestRule, hbt]
      cases hma : a.matches rm e with
      | false =>
        simp [hma, List.forall_mem_cons]
        exact ht
      | true => simp [hma, List.forall_mem_cons]
    | some bb =>
      have hbbt := bestRule_some_matches_mem rm e t bb hbt
      simp only [bestRule, hbt]
      have hne : (if (a.matches rm e && decide (bb.priority ≤ a.priority)) = true
          then some a else some bb) ≠ Option.none := by
        cases hcond : (a.matches rm e && decide (bb.priority ≤ a.priority)) <;>
          simp [hcond]
      constructor
      · intro hcontra
        exact absurd hcontra hne
      · intro hall
        exact absurd (hall bb (List.mem_cons_of_mem _ hbbt.2)) (by simp [hbbt.1])

/-- A selected best rule matches, belongs to the rule list, and has
priority at least that of every matching rule. -/
theorem bestRule_spec (rm : String → String → Bool) (e : Event)
    (rules : List RoutingRule) (b : RoutingRule)
    (h : bestRule rm e rules = some b) :
    b.matches rm e = true ∧ b ∈ rules ∧
      ∀ r ∈ rules, r.matches rm e = true → r.priority ≤ b.priority := by
  induction rules generalizing b with
  | nil => exact Option.noConfusion h
  | cons a t ih =>
    cases hbt : bestRule rm e t with
    | none =>
      have ht := (bestRule_eq_none_iff rm e t).mp hbt
      simp only [bestRule, hbt] at h
      cases hma : a.matches rm e with
      | false => simp [hma] at h
      | true =>
        simp only [hma, if_true] at h
        injection h with hab
        subst hab
        refine ⟨hma, List.mem_cons_self _ _, ?_⟩
        intro r hr hmr
        rcases List.mem_cons.mp hr with hr | hr
        · exact hr ▸ le_refl _
        · exact absurd hmr (by simp [ht r hr])
    | some bb =>
      simp only [bestRule, hbt] at h
      rcases ih bb hbt with ⟨hbbm, hbbmem, hbbge⟩
      cases hcond : (a.matches rm e && decide (bb.priority ≤ a.priority)) with
      | true =>
        rw [hcond, if_pos rfl] at h
        injection h with hab
        subst hab
        simp only [Bool.and_eq_true, decide_eq_true_eq] at hcond
        refine ⟨hcond.1, List.mem_cons_self _ _, ?_⟩
        intro r hr hmr
        rcases List.mem_cons.mp hr with hr | hr
        · exact hr ▸ le_refl _
        · exact le_trans (hbbge r hr hmr) hcond.2
      | false =>
        rw [hcond] at h
        simp only [Bool.false_eq_true, if_false] at h
        injection h with hab
        subst hab
        refine ⟨hbbm, List.mem_cons_of_mem _ hbbmem, ?_⟩
        intro r hr hmr
        rcases List.mem_cons.mp hr with hr | hr
        · rw [hr]
          have hma : a.matches rm e = true := by rw [← hr]; exact hmr
          have h3 : ¬bb.priority ≤ a.priority := by
            intro hle
            have hcontra : (a.matches rm e && decide (bb.priority ≤ a.priority)) = true := by
              simp [hma, hle]
            rw [hcontra] at hcond
            exact Bool.noConfusion hcond
          omega
        · exact hbbge r hr hmr

/-- Pattern matching ignores the priority field. -/
theorem matches_setPriority (r : RoutingRule) (p : Int)
    (rm : String → String → Bool) (e : Event) :
    (setPriority r p).matches rm e = r.matches rm e := rfl

/-- The best rule only depends on the matching rules: replacing
non-matching rules by non-matching rules leaves it unchanged. -/
theorem bestRule_congr (rm : String → String → Bool) (e : Event)
    (l1 l2 : List RoutingRule)
    (h : List.Forall₂ (fun a b => a = b ∨
      (a.matches rm e = false ∧ b.matches rm e = false)) l1 l2) :
    bestRule rm e l1 = bestRule rm e l2 := by
  induction h with
  | nil => rfl
  | cons hab htail ih =>
    rw [bestRule, bestRule, ih]
    rcases hab with hab | ⟨hma, hmb⟩
    · rw [hab]
    · cases hbt : bestRule rm e _ with
      | none => simp [hma, hmb]
      | some bb => simp [hma, hmb]

/-- Updating the priority of a non-matching rule relates the rule lists
element-wise by the congruence relation of `bestRule_congr`. -/
theorem forall₂_set_setPriority (rm : String → String → Bool) (e : Event)
    (rules : List RoutingRule) (i : Nat) (r : RoutingRule) (p : Int)
    (hget : rules.get? i = some r) (hm : r.matches rm e = false) :
    List.Forall₂ (fun a b => a = b ∨
        (a.matches rm e = false ∧ b.matches rm e = false))
      (rules.set i (setPriority r p)) rules := by
  induction rules generalizing i with
  | nil => exact Option.noConfusion hget
  | cons a t ih =>
    cases i with
    | zero =>
      injection hget with hget
      subst hget
      rw [List.set]
      exact List.Forall₂.cons
        (Or.inr ⟨by rw [matches_setPriority]; exact hm, hm⟩)
        (List.forall₂_same.mpr (fun x _ => Or.inl rfl))
    | succ n =>
      rw [List.set]
      exact List.Forall₂.cons (Or.inl rfl) (ih n hget)

/-- C7: the rule selected by the scan (if any) equals the spec-characterised
best rule — the highest-priority rule whose declared patterns all match,
ties broken by insertion order; a selected rule matches and dominates every
matching rule's priority; no rule is selected exactly when none matches (a
rule with no patterns always matches); and changing only the priority of a
non-matching rule never changes the outcome. -/
theorem c7_rule_selection (rm : String → String → Bool) (e : Event)
    (rules : List RoutingRule) :
    ruleSelect rm e rules = bestRule rm e rules ∧
    (∀ b, ruleSelect rm e rules = some b →
      b.matches rm e = true ∧ b ∈ rules ∧
        ∀ r ∈ rules, r.matches rm e = true → r.priority ≤ b.priority) ∧
    (ruleSelect rm e rules = Option.none ↔
      ∀ r ∈ rules, r.matches rm e = false) ∧
    (∀ i r p, rules.get? i = some r → r.matches rm e = false →
      ruleSelect rm e (rules.set i (setPriority r p)) = ruleSelect rm e rules) := by
  refine ⟨ruleSelect_eq_bestRule rm e rules, ?_, ?_, ?_⟩
  · intro b hb
    rw [ruleSelect_eq_bestRule] at hb
    exact bestRule_spec rm e rules b hb
  · rw [ruleSelect_eq_bestRule]
    exact bestRule_eq_none_iff rm e rules
  · intro i r p hget hm
    rw [ruleSelect_eq_bestRule, ruleSelect_eq_bestRule]
    exact bestRule_congr rm e _ _ (forall₂_set_setPriority rm e rules i r p hget hm)

/-- Two-rule list of the C7 witness: a non-matching rule ahead of a
matching catch-all. -/
def rulesC7 : List RoutingRule :=
  [{ name := "never", priority := 5, source_pattern := some "nomatch",
     target_type := .team, target_id := 1 },
   { name := "all", priority := 1, target_type := .agent, target_id := 2 }]

/-- Pattern oracle of the C7 witness: a pattern matches a value exactly
when they are equal strings. -/
def rmEq : String → String → Bool := fun pat s => pat == s

/-- Witness for C7: on a concrete event and rule set, the scan picks the
matching catch-all rule, and raising the non-matching rule's priority to 99
does not change the outcome. -/
theorem c7_rule_selection_witness :
    ruleSelect rmEq { } rulesC7 = bestRule rmEq { } rulesC7 ∧
    ruleSelect rmEq { }
        (rulesC7.set 0 (setPriority
          { name := "never", priority := 5, source_pattern := some "nomatch",
            target_type := .team, target_id := 1 } 99)) =
      ruleSelect rmEq { } rulesC7 :=
  ⟨(c7_rule_selection rmEq { } rulesC7).1,
   (c7_rule_selection rmEq { } rulesC7).2.2.2 0
     { name := "never", priority := 5, source_pattern := some "nomatch",
       target_type := .team, target_id := 1 } 99 rfl (by decide)⟩

end DynamicAgents
